import Mathlib

/-
  Verification development for the property-map repository.

  The repository contains near-duplicate variants of a browser form that
  maintains an ordered list of property records (primary / comparable /
  hospital), fills it from bulk pasted text, and numbers comparable records
  for map markers and legends.  Below, the bulk parser, the interactive
  add / remove / update / type-change handlers, and the numbering rules are
  embedded over lists of characters, and the specification claims about them
  are proved or refuted.

  Strings are modelled as List Char.  JavaScript whitespace is modelled by
  the ASCII whitespace characters, which is the fragment exercised by every
  claim here.
-/

namespace PropertyMap

/-- ASCII whitespace, the model of the JavaScript regex class backslash-s
and of the characters removed by String.prototype.trim. -/
def isWs (c : Char) : Bool :=
  c == ' ' || c == '\t' || c == '\n' || c == '\r' || c == '\x0b' || c == '\x0c'

/-- Model of JavaScript String.prototype.trim: drop whitespace from both ends. -/
def jsTrim (cs : List Char) : List Char :=
  ((cs.dropWhile isWs).reverse.dropWhile isWs).reverse

/-- Model of text.split with separator a newline character. -/
def splitLines : List Char → List (List Char)
  | [] => [[]]
  | c :: cs =>
    match splitLines cs with
    | [] => [[c]]
    | l :: ls => if c = '\n' then [] :: l :: ls else (c :: l) :: ls

/-- True when a character list starts with a whitespace character. -/
def headWs : List Char → Bool
  | [] => false
  | c :: _ => isWs c

/-- Left-to-right scan behind the model of line.split on the regex: a tab,
or a run of two or more whitespace characters.  The alternation is
ordered, so at a tab the one-character alternative matches first; at any
other whitespace character followed by more whitespace the greedy run
alternative matches and consumes the whole whitespace run, which the
true-flagged state does one character at a time. -/
def splitSegsGo : Bool → List Char → List (List Char)
  | _, [] => [[]]
  | true, c :: cs =>
    if isWs c then splitSegsGo true cs
    else
      match splitSegsGo false cs with
      | [] => [[c]]
      | l :: ls => (c :: l) :: ls
  | false, c :: cs =>
    if c = '\t' then [] :: splitSegsGo false cs
    else if isWs c && headWs cs then [] :: splitSegsGo true cs
    else
      match splitSegsGo false cs with
      | [] => [[c]]
      | l :: ls => (c :: l) :: ls

/-- Model of line.split on the tab-or-whitespace-run regex. -/
def splitSegs (cs : List Char) : List (List Char) :=
  splitSegsGo false cs

/-- Model of parts.join with a single space separator. -/
def joinSpace (parts : List (List Char)) : List Char :=
  List.intercalate [' '] parts

/-- Substring test: model of String.prototype.includes. -/
def hasSub (pat : List Char) : List Char → Bool
  | [] => pat.isEmpty
  | c :: cs => pat.isPrefixOf (c :: cs) || hasSub pat cs

/-- Model of String.prototype.toLowerCase on the ASCII fragment. -/
def lowerStr (cs : List Char) : List Char :=
  cs.map Char.toLower

/-- Decimal digits of a natural number, the model of JavaScript template
interpolation of a number. -/
def natChars (n : Nat) : List Char :=
  Nat.toDigits 10 n

/-- The property taxonomy.  The two-category variants use only the first
two constructors. -/
inductive PType
  | primary
  | comparable
  | hospital
deriving DecidableEq

/-- Record identifiers.  The identifier strings of the source are the
reserved string for the primary record, a role-time-index string for
bulk-parsed records, and a role-time string for interactively added
records; the three shapes are pairwise distinct as strings, so an
inductive with injective constructors is a faithful model. -/
inductive PId
  | primary
  | bulk (role : PType) (t : Nat) (index : Nat)
  | added (role : PType) (t : Nat)
deriving DecidableEq

/-- The property record.  The two-category variants carry no valuation
fields; their records are modelled with the valuation fields constantly
empty. -/
structure Property where
  id : PId
  name : List Char
  address : List Char
  type : PType
  gla : List Char
  occupancy : List Char
  rate : List Char
deriving DecidableEq

/-- The non-blank lines of a bulk input text: split on newlines, keep
lines that are non-empty after trimming. -/
def nonblankLines (text : List Char) : List (List Char) :=
  (splitLines text).filter (fun l => 0 < (jsTrim l).length)

/-- The segments of one bulk input line. -/
def lineParts (line : List Char) : List (List Char) :=
  splitSegs line

/-- The keyword test of the three-category classifier: the lower-cased
text contains hospital, medical center, or healthcare. -/
def hospitalKeyword (seg : List Char) : Bool :=
  hasSub "hospital".toList (lowerStr seg) ||
  hasSub "medical center".toList (lowerStr seg) ||
  hasSub "healthcare".toList (lowerStr seg)

/-- Role of a bulk line in the two-category variant: position zero is
primary, all others comparable. -/
def bulkType2 (index : Nat) : PType :=
  if index = 0 then .primary else .comparable

/-- Role of a bulk line in the three-category variant: position zero is
primary; at a later position the role is hospital when the first segment
is non-empty and passes the keyword test, else comparable. -/
def bulkType3 (index : Nat) (line : List Char) : PType :=
  let parts := lineParts line
  let ty0 : PType := if index = 0 then .primary else .comparable
  if 0 < index ∧ (parts.headD []) ≠ [] ∧ hospitalKeyword (parts.headD []) = true then
    .hospital
  else ty0

/-- Address of a bulk line: with two or more segments, the segments after
the first rejoined with one space and trimmed; otherwise the whole line
trimmed.  Identical in every variant. -/
def bulkAddress (line : List Char) : List Char :=
  let parts := lineParts line
  if 2 ≤ parts.length then jsTrim (joinSpace (parts.drop 1)) else jsTrim line

/-- Name of a bulk line in the two-category variant. -/
def bulkName2 (index : Nat) (line : List Char) : List Char :=
  let parts := lineParts line
  if 2 ≤ parts.length then jsTrim (parts.headD [])
  else if index = 0 then "Primary Property".toList
  else "Comparable ".toList ++ natChars index

/-- Name of a bulk line in the three-category variant. -/
def bulkName3 (index : Nat) (line : List Char) : List Char :=
  let parts := lineParts line
  if 2 ≤ parts.length then jsTrim (parts.headD [])
  else if index = 0 then "Primary Property".toList
  else if bulkType3 index line = .hospital then "Hospital ".toList ++ natChars index
  else "Comparable ".toList ++ natChars index

/-- The record built from one bulk line of the two-category variant;
t models the Date.now value observed while processing this line. -/
def parseLine2 (t : Nat) (index : Nat) (line : List Char) : Property :=
  { id := if bulkType2 index = .primary then .primary else .bulk .comparable t index
    name := bulkName2 index line
    address := bulkAddress line
    type := bulkType2 index
    gla := [], occupancy := [], rate := [] }

/-- The record built from one bulk line of the three-category variant. -/
def parseLine3 (t : Nat) (index : Nat) (line : List Char) : Property :=
  { id := if bulkType3 index line = .primary then .primary
          else .bulk (bulkType3 index line) t index
    name := bulkName3 index line
    address := bulkAddress line
    type := bulkType3 index line
    gla := [], occupancy := [], rate := [] }

/-- Records of the bulk lines of the two-category variant, starting at a
given position; tf models the clock read at each line. -/
def bulkRecords2 (tf : Nat → Nat) : Nat → List (List Char) → List Property
  | _, [] => []
  | n, l :: ls => parseLine2 (tf n) n l :: bulkRecords2 tf (n + 1) ls

/-- Records of the bulk lines of the three-category variant. -/
def bulkRecords3 (tf : Nat → Nat) : Nat → List (List Char) → List Property
  | _, [] => []
  | n, l :: ls => parseLine3 (tf n) n l :: bulkRecords3 tf (n + 1) ls

/-- The bulk input handler of the two-category variant: with no non-blank
line the property list is left unchanged, otherwise it is replaced by the
parsed records. -/
def handleBulkAddressInput2 (tf : Nat → Nat) (text : List Char)
    (ps : List Property) : List Property :=
  let lines := nonblankLines text
  if lines.length = 0 then ps else bulkRecords2 tf 0 lines

/-- The bulk input handler of the three-category variant. -/
def handleBulkAddressInput3 (tf : Nat → Nat) (text : List Char)
    (ps : List Property) : List Property :=
  let lines := nonblankLines text
  if lines.length = 0 then ps else bulkRecords3 tf 0 lines

/-- The comparable record appended by the two-category add handler. -/
def newComparable2 (t : Nat) (ps : List Property) : Property :=
  { id := .added .comparable t
    name := "Comparable ".toList ++
      natChars ((ps.filter (fun p => p.type = .comparable)).length + 1)
    address := [], type := .comparable
    gla := [], occupancy := [], rate := [] }

/-- The add handler of the two-category variant: append a fresh comparable
record unless twelve comparables are already present. -/
def handleAddProperty2 (t : Nat) (ps : List Property) : List Property :=
  let compCount := (ps.filter (fun p => p.type = .comparable)).length
  if compCount < 12 then ps ++ [newComparable2 t ps] else ps

/-- The add handler of the three-category variant: a hospital argument
appends a hospital record, any other argument a comparable record, unless
the per-type cap (twelve comparables, five hospitals) is already reached,
in which case the list is returned unchanged. -/
def handleAddProperty3 (t : Nat) (ty : PType) (ps : List Property) : List Property :=
  let compCount := (ps.filter (fun p => p.type = .comparable)).length
  let hospitalCount := (ps.filter (fun p => p.type = .hospital)).length
  let newName : List Char :=
    if ty = .hospital then "Hospital ".toList ++ natChars (hospitalCount + 1)
    else "Comparable ".toList ++ natChars (compCount + 1)
  let newType : PType := if ty = .hospital then .hospital else .comparable
  if (newType = .comparable ∧ 12 ≤ compCount) ∨ (newType = .hospital ∧ 5 ≤ hospitalCount) then
    ps
  else
    ps ++ [{ id := .added newType t, name := newName, address := []
             type := newType, gla := [], occupancy := [], rate := [] }]

/-- The remove handler, identical in every variant: keep the records whose
identifier differs from the given one.  It carries no guard of its own. -/
def handleRemoveProperty (i : PId) (ps : List Property) : List Property :=
  ps.filter (fun p => p.id ≠ i)

/-- The editable fields passed to the field-update handler by the UI. -/
inductive PField
  | name
  | address
  | gla
  | occupancy
  | rate
deriving DecidableEq

/-- Overwrite one editable field of a record. -/
def setField (p : Property) : PField → List Char → Property
  | .name, v => { p with name := v }
  | .address, v => { p with address := v }
  | .gla, v => { p with gla := v }
  | .occupancy, v => { p with occupancy := v }
  | .rate, v => { p with rate := v }

/-- The field-update handler: rewrite the given field of every record whose
identifier matches. -/
def handlePropertyChange (i : PId) (f : PField) (v : List Char)
    (ps : List Property) : List Property :=
  ps.map (fun p => if p.id = i then setField p f v else p)

/-- The type-change handler of the three-category variant: rewrite the type
of every record whose identifier matches; no cap check is performed. -/
def handlePropertyTypeChange (i : PId) (newType : PType)
    (ps : List Property) : List Property :=
  ps.map (fun p => if p.id = i then { p with type := newType } else p)

/-- Pair each list element with a sequence number, counting from n.  Model
of the map-with-index and counter idioms of the legend and marker builders. -/
def numberFrom (n : Nat) : List Property → List (Property × Nat)
  | [] => []
  | p :: ps => (p, n) :: numberFrom (n + 1) ps

/-- Marker numbering of the two-category variant: the comparable records
with a non-blank address, in list order, numbered from one. -/
def compMarkerEntries (ps : List Property) : List (Property × Nat) :=
  numberFrom 1 (ps.filter (fun p => p.type = .comparable ∧ jsTrim p.address ≠ []))

/-- Export legend numbering of the two-category variant: the comparable
records with a non-blank address, in list order, numbered from one. -/
def exportLegendEntries (ps : List Property) : List (Property × Nat) :=
  numberFrom 1 (ps.filter (fun p => p.type = .comparable ∧ jsTrim p.address ≠ []))

/-- On-screen legend numbering of the two-category variant: every
comparable record, in list order, numbered from one; the address is not
consulted. -/
def screenLegendEntries (ps : List Property) : List (Property × Nat) :=
  numberFrom 1 (ps.filter (fun p => p.type = .comparable))

/-- The initial property list of both stateful variants. -/
def initialProperty : Property :=
  { id := .primary, name := "Primary Property".toList, address := []
    type := .primary, gla := [], occupancy := [], rate := [] }

/-- One UI-exposed mutation of the three-category variant.  The remove and
type-change steps carry the guards enforced by the rendered controls: a
remove button and a type selector exist only next to a non-primary record,
and the selector offers only comparable and hospital. -/
inductive Step : List Property → List Property → Prop
  | add (ps : List Property) (t : Nat) (ty : PType) :
      Step ps (handleAddProperty3 t ty ps)
  | remove (ps : List Property) (i : PId) (p : Property)
      (hp : p ∈ ps) (hty : p.type ≠ .primary) (hid : p.id = i) :
      Step ps (handleRemoveProperty i ps)
  | change (ps : List Property) (i : PId) (f : PField) (v : List Char) :
      Step ps (handlePropertyChange i f v ps)
  | typeChange (ps : List Property) (i : PId) (ty : PType) (p : Property)
      (hp : p ∈ ps) (hty : p.type ≠ .primary) (hid : p.id = i)
      (hopt : ty = .comparable ∨ ty = .hospital) :
      Step ps (handlePropertyTypeChange i ty ps)
  | bulk (ps : List Property) (tf : Nat → Nat) (text : List Char) :
      Step ps (handleBulkAddressInput3 tf text ps)

/-- States reachable from the initial single-primary list by UI-exposed
mutations. -/
inductive Reachable : List Property → Prop
  | init : Reachable [initialProperty]
  | step {ps qs : List Property} : Reachable ps → Step ps qs → Reachable qs

/-- Number of records with the primary type. -/
def primaryCount (ps : List Property) : Nat :=
  (ps.filter (fun p => p.type = .primary)).length

/-- True when a character list starts with a space character. -/
def headSp : List Char → Bool
  | [] => false
  | c :: _ => c = ' '

/-- Scan behind the claim-worded delimiter split; the true-flagged state
consumes the remainder of a space run already matched as a delimiter. -/
def claimSplitSegsGo : Bool → List Char → List (List Char)
  | _, [] => [[]]
  | true, c :: cs =>
    if c = ' ' then claimSplitSegsGo true cs
    else if c = '\t' then [] :: claimSplitSegsGo false cs
    else
      match claimSplitSegsGo false cs with
      | [] => [[c]]
      | l :: ls => (c :: l) :: ls
  | false, c :: cs =>
    if c = '\t' then [] :: claimSplitSegsGo false cs
    else if c == ' ' && headSp cs then [] :: claimSplitSegsGo true cs
    else
      match claimSplitSegsGo false cs with
      | [] => [[c]]
      | l :: ls => (c :: l) :: ls

/-- Modelled from the claim wording of the line delimiter: a single tab
character, or a run of two or more consecutive space characters.  The
source regex instead accepts a run of two or more whitespace characters of
any kind. -/
def claimSplitSegs (cs : List Char) : List (List Char) :=
  claimSplitSegsGo false cs

/-- The address the claim wording predicts for a delimited line: the
segments after the first, under the claim delimiter, rejoined with one
space and trimmed. -/
def claimParsedAddress (line : List Char) : List Char :=
  jsTrim (joinSpace ((claimSplitSegs line).drop 1))

/-- The claim that on every line with two or more segments under the
claim delimiter, the parsed record takes its name from the first such
segment and its address from the remaining ones. -/
def c2ClaimHolds : Prop :=
  ∀ (t i : Nat) (line : List Char), 2 ≤ (claimSplitSegs line).length →
    (parseLine3 t i line).name = jsTrim ((claimSplitSegs line).headD []) ∧
    (parseLine3 t i line).address = claimParsedAddress line

section ParseLemmas

lemma bulkType2_eq_primary_iff (i : Nat) : bulkType2 i = .primary ↔ i = 0 := by
  unfold bulkType2
  split_ifs with h <;> simp [h]

lemma bulkType3_eq_primary_iff (i : Nat) (l : List Char) :
    bulkType3 i l = .primary ↔ i = 0 := by
  unfold bulkType3
  by_cases hc : 0 < i ∧ (lineParts l).headD [] ≠ [] ∧
      hospitalKeyword ((lineParts l).headD []) = true
  · rw [if_pos hc]
    obtain ⟨h1, -⟩ := hc
    exact iff_of_false (by simp) (by omega)
  · rw [if_neg hc]
    by_cases h0 : i = 0
    · simp [h0]
    · simp [h0]

lemma bulkType3_zero (l : List Char) : bulkType3 0 l = .primary := by
  simp [bulkType3_eq_primary_iff]

lemma bulkType3_pos_ne_primary {i : Nat} (l : List Char) (hi : 0 < i) :
    bulkType3 i l ≠ .primary := by
  rw [Ne, bulkType3_eq_primary_iff]
  omega

lemma bulkType3_hospital_iff {i : Nat} (l : List Char) (hi : 0 < i) :
    bulkType3 i l = .hospital ↔
      ((lineParts l).headD [] ≠ [] ∧ hospitalKeyword ((lineParts l).headD []) = true) := by
  unfold bulkType3
  by_cases hc : 0 < i ∧ (lineParts l).headD [] ≠ [] ∧
      hospitalKeyword ((lineParts l).headD []) = true
  · rw [if_pos hc]
    exact iff_of_true rfl ⟨hc.2.1, hc.2.2⟩
  · rw [if_neg hc]
    have hi0 : ¬ i = 0 := by omega
    have hne : ¬ ((lineParts l).headD [] ≠ [] ∧
        hospitalKeyword ((lineParts l).headD []) = true) :=
      fun hx => hc ⟨hi, hx⟩
    rw [if_neg hi0]
    exact iff_of_false (by simp) hne

lemma parseLine3_type (t i : Nat) (l : List Char) :
    (parseLine3 t i l).type = bulkType3 i l := rfl

lemma parseLine2_type (t i : Nat) (l : List Char) :
    (parseLine2 t i l).type = bulkType2 i := rfl

lemma parseLine3_id_zero (t : Nat) (l : List Char) :
    (parseLine3 t 0 l).id = .primary := by
  simp [parseLine3, bulkType3_zero]

lemma parseLine3_id_pos (t : Nat) {i : Nat} (l : List Char) (hi : 0 < i) :
    (parseLine3 t i l).id = .bulk (bulkType3 i l) t i := by
  simp [parseLine3, bulkType3_pos_ne_primary l hi]

lemma parseLine2_id_zero (t : Nat) (l : List Char) :
    (parseLine2 t 0 l).id = .primary := by
  simp [parseLine2, bulkType2_eq_primary_iff]

lemma parseLine2_id_pos (t : Nat) {i : Nat} (l : List Char) (hi : 0 < i) :
    (parseLine2 t i l).id = .bulk .comparable t i := by
  have : bulkType2 i ≠ .primary := by
    rw [Ne, bulkType2_eq_primary_iff]
    omega
  simp [parseLine2, this]

lemma bulkRecords3_length (tf : Nat → Nat) (n : Nat) (ls : List (List Char)) :
    (bulkRecords3 tf n ls).length = ls.length := by
  induction ls generalizing n with
  | nil => rfl
  | cons l ls ih => simp [bulkRecords3, ih]

lemma bulkRecords2_length (tf : Nat → Nat) (n : Nat) (ls : List (List Char)) :
    (bulkRecords2 tf n ls).length = ls.length := by
  induction ls generalizing n with
  | nil => rfl
  | cons l ls ih => simp [bulkRecords2, ih]

lemma bulkRecords3_get? (tf : Nat → Nat) (n j : Nat) (ls : List (List Char)) :
    (bulkRecords3 tf n ls).get? j =
      (ls.get? j).map (fun l => parseLine3 (tf (n + j)) (n + j) l) := by
  induction ls generalizing n j with
  | nil => simp [bulkRecords3]
  | cons l ls ih =>
    cases j with
    | zero => simp [bulkRecords3]
    | succ j =>
      simp only [bulkRecords3, List.get?]
      rw [ih]
      have : n + 1 + j = n + (j + 1) := by omega
      rw [this]

lemma bulkRecords3_mem (tf : Nat → Nat) {n : Nat} {ls : List (List Char)} {p : Property}
    (hp : p ∈ bulkRecords3 tf n ls) :
    ∃ k l, n ≤ k ∧ l ∈ ls ∧ p = parseLine3 (tf k) k l := by
  induction ls generalizing n with
  | nil => simp [bulkRecords3] at hp
  | cons l ls ih =>
    simp only [bulkRecords3, List.mem_cons] at hp
    rcases hp with h | h
    · exact ⟨n, l, le_refl n, List.mem_cons_self l ls, h⟩
    · obtain ⟨k, l', hk, hl', hp'⟩ := ih h
      exact ⟨k, l', by omega, List.mem_cons_of_mem l hl', hp'⟩

lemma bulkRecords2_mem (tf : Nat → Nat) {n : Nat} {ls : List (List Char)} {p : Property}
    (hp : p ∈ bulkRecords2 tf n ls) :
    ∃ k l, n ≤ k ∧ l ∈ ls ∧ p = parseLine2 (tf k) k l := by
  induction ls generalizing n with
  | nil => simp [bulkRecords2] at hp
  | cons l ls ih =>
    simp only [bulkRecords2, List.mem_cons] at hp
    rcases hp with h | h
    · exact ⟨n, l, le_refl n, List.mem_cons_self l ls, h⟩
    · obtain ⟨k, l', hk, hl', hp'⟩ := ih h
      exact ⟨k, l', by omega, List.mem_cons_of_mem l hl', hp'⟩

lemma bulkRecords3_no_primary (tf : Nat → Nat) (n : Nat) (ls : List (List Char))
    (hn : 0 < n) : ∀ p ∈ bulkRecords3 tf n ls, p.type ≠ .primary := by
  intro p hp
  obtain ⟨k, l, hk, -, rfl⟩ := bulkRecords3_mem tf hp
  rw [parseLine3_type]
  exact bulkType3_pos_ne_primary l (by omega)

lemma bulkRecords2_no_primary (tf : Nat → Nat) (n : Nat) (ls : List (List Char))
    (hn : 0 < n) : ∀ p ∈ bulkRecords2 tf n ls, p.type ≠ .primary := by
  intro p hp
  obtain ⟨k, l, hk, -, rfl⟩ := bulkRecords2_mem tf hp
  rw [parseLine2_type, Ne, bulkType2_eq_primary_iff]
  omega

lemma primaryCount_bulkRecords3_tail (tf : Nat → Nat) (n : Nat) (ls : List (List Char))
    (hn : 0 < n) : primaryCount (bulkRecords3 tf n ls) = 0 := by
  unfold primaryCount
  rw [List.length_eq_zero, List.filter_eq_nil_iff]
  intro p hp
  simpa using bulkRecords3_no_primary tf n ls hn p hp

lemma primaryCount_bulkRecords2_tail (tf : Nat → Nat) (n : Nat) (ls : List (List Char))
    (hn : 0 < n) : primaryCount (bulkRecords2 tf n ls) = 0 := by
  unfold primaryCount
  rw [List.length_eq_zero, List.filter_eq_nil_iff]
  intro p hp
  simpa using bulkRecords2_no_primary tf n ls hn p hp

lemma primaryCount_cons (p : Property) (ps : List Property) :
    primaryCount (p :: ps) = (if p.type = .primary then 1 else 0) + primaryCount ps := by
  unfold primaryCount
  by_cases h : p.type = .primary <;> simp [List.filter_cons, h, Nat.add_comm]

lemma handleBulk3_eq_cons (tf : Nat → Nat) (text : List Char) (ps : List Property)
    {l : List Char} {ls : List (List Char)} (hls : nonblankLines text = l :: ls) :
    handleBulkAddressInput3 tf text ps = parseLine3 (tf 0) 0 l :: bulkRecords3 tf 1 ls := by
  unfold handleBulkAddressInput3
  rw [hls]
  simp [bulkRecords3]

lemma handleBulk2_eq_cons (tf : Nat → Nat) (text : List Char) (ps : List Property)
    {l : List Char} {ls : List (List Char)} (hls : nonblankLines text = l :: ls) :
    handleBulkAddressInput2 tf text ps = parseLine2 (tf 0) 0 l :: bulkRecords2 tf 1 ls := by
  unfold handleBulkAddressInput2
  rw [hls]
  simp [bulkRecords2]

end ParseLemmas

/-- C1: when the input text has at least one non-blank line, the bulk
parse of either variant produces exactly one record of the primary type,
namely the record built from the line at position zero; every record built
from a later line receives a non-primary type. -/
theorem c1_bulk_exactly_one_primary (tf : Nat → Nat) (text : List Char)
    (ps : List Property) (h : nonblankLines text ≠ []) :
    (primaryCount (handleBulkAddressInput3 tf text ps) = 1
      ∧ (handleBulkAddressInput3 tf text ps).head? =
          some (parseLine3 (tf 0) 0 ((nonblankLines text).headD []))
      ∧ (parseLine3 (tf 0) 0 ((nonblankLines text).headD [])).type = .primary
      ∧ ∀ p ∈ (handleBulkAddressInput3 tf text ps).drop 1, p.type ≠ .primary)
    ∧ (primaryCount (handleBulkAddressInput2 tf text ps) = 1
      ∧ (handleBulkAddressInput2 tf text ps).head? =
          some (parseLine2 (tf 0) 0 ((nonblankLines text).headD []))
      ∧ (parseLine2 (tf 0) 0 ((nonblankLines text).headD [])).type = .primary
      ∧ ∀ p ∈ (handleBulkAddressInput2 tf text ps).drop 1, p.type ≠ .primary) := by
  obtain ⟨l, ls, hls⟩ : ∃ l ls, nonblankLines text = l :: ls := by
    cases hnl : nonblankLines text with
    | nil => exact absurd hnl h
    | cons a as => exact ⟨a, as, rfl⟩
  have h3 := handleBulk3_eq_cons tf text ps hls
  have h2 := handleBulk2_eq_cons tf text ps hls
  constructor
  · refine ⟨?_, ?_, ?_, ?_⟩
    · rw [h3, primaryCount_cons, primaryCount_bulkRecords3_tail tf 1 ls (by omega)]
      simp [parseLine3_type, bulkType3_zero]
    · rw [h3, hls]
      simp
    · rw [hls]
      simp [parseLine3_type, bulkType3_zero]
    · rw [h3]
      intro p hp
      exact bulkRecords3_no_primary tf 1 ls (by omega) p (by simpa using hp)
  · refine ⟨?_, ?_, ?_, ?_⟩
    · rw [h2, primaryCount_cons, primaryCount_bulkRecords2_tail tf 1 ls (by omega)]
      simp [parseLine2_type, bulkType2]
    · rw [h2, hls]
      simp
    · rw [hls]
      simp [parseLine2_type, bulkType2]
    · rw [h2]
      intro p hp
      exact bulkRecords2_no_primary tf 1 ls (by omega) p (by simpa using hp)

/-- Witness for C1 at the one-line input text A. -/
theorem c1_bulk_exactly_one_primary_witness :
    nonblankLines "A".toList ≠ []
    ∧ primaryCount (handleBulkAddressInput3 (fun _ => 0) "A".toList []) = 1
    ∧ primaryCount (handleBulkAddressInput2 (fun _ => 0) "A".toList []) = 1 := by
  have h : nonblankLines "A".toList ≠ [] := by decide
  have hc := c1_bulk_exactly_one_primary (fun _ => 0) "A".toList [] h
  exact ⟨h, hc.1.1, hc.2.1⟩

/-- C2 (amended): on every line with two or more segments, where the
delimiter is a single tab or a run of two or more whitespace characters,
both variants take the name from the trimmed first segment and the address
from the remaining segments rejoined with one space and trimmed. -/
theorem c2_delimited_name_address (t i : Nat) (line : List Char)
    (h : 2 ≤ (lineParts line).length) :
    (parseLine3 t i line).name = jsTrim ((lineParts line).headD [])
    ∧ (parseLine3 t i line).address = jsTrim (joinSpace ((lineParts line).drop 1))
    ∧ (parseLine2 t i line).name = jsTrim ((lineParts line).headD [])
    ∧ (parseLine2 t i line).address = jsTrim (joinSpace ((lineParts line).drop 1)) := by
  refine ⟨?_, ?_, ?_, ?_⟩ <;>
    simp [parseLine3, parseLine2, bulkName3, bulkName2, bulkAddress, h]

/-- Witness for C2 at a tab-delimited line. -/
theorem c2_delimited_name_address_witness :
    2 ≤ (lineParts "Name\t100 Main St".toList).length
    ∧ (parseLine3 0 1 "Name\t100 Main St".toList).name = "Name".toList
    ∧ (parseLine3 0 1 "Name\t100 Main St".toList).address = "100 Main St".toList := by
  have h : 2 ≤ (lineParts "Name\t100 Main St".toList).length := by decide
  have hc := c2_delimited_name_address 0 1 "Name\t100 Main St".toList h
  refine ⟨h, ?_, ?_⟩
  · rw [hc.1]
    decide
  · rw [hc.2.1]
    decide

/-- Counterexample for C2 as stated: on the line x-space-space-y-space-tab-z
the claim delimiter (tab, or a run of two or more space characters) yields
the segments x, y-space, z and hence the address y-space-space-z, while the
source splits the space-tab run as one delimiter and produces the address
y-space-z. -/
theorem c2_counterexample :
    ¬ c2ClaimHolds
    ∧ 2 ≤ (claimSplitSegs "x  y \tz".toList).length
    ∧ claimParsedAddress "x  y \tz".toList = "y  z".toList
    ∧ (parseLine3 0 1 "x  y \tz".toList).address = "y z".toList := by
  refine ⟨?_, by decide, by decide, by decide⟩
  intro hcl
  have h := (hcl 0 1 "x  y \tz".toList (by decide)).2
  revert h
  decide

/-- C4: on a line with no delimiter the address of both variants is the
whole trimmed line, and the name is the synthesized default of the role:
Primary Property at position zero, Hospital index for a hospital record,
Comparable index for a comparable record, where the index is the absolute
position of the line among the non-blank lines, as the second conjunct
shows. -/
theorem c4_default_names :
    (∀ (t i : Nat) (line : List Char), (lineParts line).length = 1 →
      ((parseLine3 t i line).address = jsTrim line
       ∧ (i = 0 → (parseLine3 t i line).name = "Primary Property".toList)
       ∧ (0 < i → (parseLine3 t i line).type = .hospital →
            (parseLine3 t i line).name = "Hospital ".toList ++ natChars i)
       ∧ (0 < i → (parseLine3 t i line).type = .comparable →
            (parseLine3 t i line).name = "Comparable ".toList ++ natChars i)
       ∧ (parseLine2 t i line).address = jsTrim line
       ∧ (i = 0 → (parseLine2 t i line).name = "Primary Property".toList)
       ∧ (0 < i → (parseLine2 t i line).name = "Comparable ".toList ++ natChars i)))
    ∧ (∀ (tf : Nat → Nat) (lines : List (List Char)) (i : Nat),
        (bulkRecords3 tf 0 lines).get? i =
          (lines.get? i).map (fun l => parseLine3 (tf i) i l)) := by
  constructor
  · intro t i line h
    have hnot : ¬ 2 ≤ (lineParts line).length := by omega
    refine ⟨?_, ?_, ?_, ?_, ?_, ?_, ?_⟩
    · simp [parseLine3, bulkAddress, hnot]
    · intro h0
      simp [parseLine3, bulkName3, hnot, h0]
    · intro hi hh
      rw [parseLine3_type] at hh
      have h0 : ¬ i = 0 := by omega
      simp [parseLine3, bulkName3, hnot, h0, hh]
    · intro hi hc
      rw [parseLine3_type] at hc
      have h0 : ¬ i = 0 := by omega
      have hh : ¬ bulkType3 i line = .hospital := by
        rw [hc]
        simp
      simp [parseLine3, bulkName3, hnot, h0, hh]
    · simp [parseLine2, bulkAddress, hnot]
    · intro h0
      simp [parseLine2, bulkName2, hnot, h0]
    · intro hi
      have h0 : ¬ i = 0 := by omega
      simp [parseLine2, bulkName2, hnot, h0]
  · intro tf lines i
    have h := bulkRecords3_get? tf 0 i lines
    simpa using h

/-- The claim that classification never reads the address content of a
line: a delimiter-free line contributes no name segment and its whole text
becomes the address, so under the claim the assigned type could not vary
between two such lines. -/
def c3AddressIndependence : Prop :=
  ∀ (t₁ t₂ i : Nat) (l₁ l₂ : List Char), 0 < i →
    (lineParts l₁).length = 1 → (lineParts l₂).length = 1 →
    (parseLine3 t₁ i l₁).type = (parseLine3 t₂ i l₂).type

/-- C3 (amended): at a position past zero the three-category parse assigns
the hospital type exactly when the first split segment is non-empty and
its lower-cased text contains a keyword.  On a delimited line that segment
is the name source, but on a delimiter-free line it is the whole line,
which becomes the address, so the classification does read address content
there. -/
theorem c3_keyword_classification (t i : Nat) (line : List Char) (hi : 0 < i) :
    (parseLine3 t i line).type = .hospital ↔
      ((lineParts line).headD [] ≠ []
        ∧ hospitalKeyword ((lineParts line).headD []) = true) := by
  rw [parseLine3_type]
  exact bulkType3_hospital_iff line hi

/-- Witness for C3 at a tab-delimited hospital line in position one. -/
theorem c3_keyword_classification_witness :
    (0 : Nat) < 1
    ∧ (parseLine3 0 1 "City Hospital\t100 Main St".toList).type = .hospital := by
  refine ⟨by omega, ?_⟩
  exact (c3_keyword_classification 0 1 "City Hospital\t100 Main St".toList
    (by omega)).mpr (by decide)

/-- Counterexample for C3 as stated: the delimiter-free lines City
Hospital and Acme Shop supply no name segment, their whole text becomes
the address, yet the first is classified hospital and the second
comparable, so the classification depends on address content. -/
theorem c3_counterexample :
    ¬ c3AddressIndependence
    ∧ (lineParts "City Hospital".toList).length = 1
    ∧ (lineParts "Acme Shop".toList).length = 1
    ∧ (parseLine3 0 1 "City Hospital".toList).type = .hospital
    ∧ (parseLine3 0 1 "City Hospital".toList).address = "City Hospital".toList
    ∧ (parseLine3 0 1 "Acme Shop".toList).type = .comparable := by
  refine ⟨?_, by decide, by decide, by decide, by decide, by decide⟩
  intro h
  have hx := h 0 0 1 "City Hospital".toList "Acme Shop".toList (by omega)
    (by decide) (by decide)
  revert hx
  decide

/-- C7: with twelve comparable records present the interactive
add-comparable action is a silent no-op, and with five hospital records
present the interactive add-hospital action is a silent no-op; the
property list is returned unchanged in both cases. -/
theorem c7_interactive_add_caps (t : Nat) (ps : List Property) :
    ((ps.filter (fun p => p.type = .comparable)).length = 12 →
      handleAddProperty3 t .comparable ps = ps)
    ∧ ((ps.filter (fun p => p.type = .hospital)).length = 5 →
      handleAddProperty3 t .hospital ps = ps) := by
  constructor
  · intro h
    simp [handleAddProperty3, h]
  · intro h
    simp [handleAddProperty3, h]

/-- A concrete record used by witness states. -/
def demoRec (ty : PType) (k : Nat) : Property :=
  { id := .added ty k, name := [], address := []
    type := ty, gla := [], occupancy := [], rate := [] }

/-- A property list holding exactly twelve comparables and five hospitals. -/
def c7Demo : List Property :=
  ((List.range 12).map (demoRec .comparable)) ++ ((List.range 5).map (demoRec .hospital))

/-- Witness for C7 on a list with twelve comparables and five hospitals. -/
theorem c7_interactive_add_caps_witness :
    (c7Demo.filter (fun p => p.type = .comparable)).length = 12
    ∧ (c7Demo.filter (fun p => p.type = .hospital)).length = 5
    ∧ handleAddProperty3 99 .comparable c7Demo = c7Demo
    ∧ handleAddProperty3 99 .hospital c7Demo = c7Demo := by
  refine ⟨by decide, by decide, ?_, ?_⟩
  · exact (c7_interactive_add_caps 99 c7Demo).1 (by decide)
  · exact (c7_interactive_add_caps 99 c7Demo).2 (by decide)

section Numbering

lemma numberFrom_append (n : Nat) (l₁ l₂ : List Property) :
    numberFrom n (l₁ ++ l₂) = numberFrom n l₁ ++ numberFrom (n + l₁.length) l₂ := by
  induction l₁ generalizing n with
  | nil => simp [numberFrom]
  | cons p l ih =>
    simp only [List.cons_append, numberFrom, List.length_cons, List.append_eq]
    rw [ih]
    have h : n + 1 + l.length = n + (l.length + 1) := by omega
    rw [h]

lemma numberFrom_getElem? (n j : Nat) (l : List Property) :
    (numberFrom n l)[j]? = (l[j]?).map (fun p => (p, n + j)) := by
  induction l generalizing n j with
  | nil => simp [numberFrom]
  | cons p l ih =>
    cases j with
    | zero => simp [numberFrom]
    | succ j =>
      simp only [numberFrom, List.getElem?_cons_succ]
      rw [ih]
      have h : n + 1 + j = n + (j + 1) := by omega
      rw [h]

lemma filter_key_eq_eraseIdx (cs : List Property) (i : Nat) (hi : i < cs.length)
    (hnodup : (cs.map (fun p => p.id)).Nodup) :
    cs.filter (fun p => p.id ≠ (cs.get ⟨i, hi⟩).id) = cs.eraseIdx i := by
  induction cs generalizing i with
  | nil => simp at hi
  | cons c cs ih =>
    rw [List.map_cons, List.nodup_cons] at hnodup
    cases i with
    | zero =>
      have hk : ((c :: cs).get ⟨0, hi⟩) = c := rfl
      rw [hk, List.eraseIdx_cons_zero, List.filter_cons]
      have h1 : (decide (c.id ≠ c.id)) = false := by simp
      rw [h1]
      simp only [Bool.false_eq_true, if_false]
      rw [List.filter_eq_self]
      intro a ha
      have hmem : a.id ∈ cs.map (fun p => p.id) := List.mem_map_of_mem _ ha
      have hne : a.id ≠ c.id := fun e => hnodup.1 (e ▸ hmem)
      simpa using hne
    | succ i =>
      have hi' : i < cs.length := by simpa using hi
      have hk : ((c :: cs).get ⟨i + 1, hi⟩) = cs.get ⟨i, hi'⟩ := rfl
      rw [hk, List.eraseIdx_cons_succ, List.filter_cons]
      have hr : cs.get ⟨i, hi'⟩ ∈ cs := List.get_mem cs i hi'
      have hmem : (cs.get ⟨i, hi'⟩).id ∈ cs.map (fun p => p.id) := List.mem_map_of_mem _ hr
      have hne : c.id ≠ (cs.get ⟨i, hi'⟩).id := fun e => hnodup.1 (e ▸ hmem)
      have h1 : (decide (c.id ≠ (cs.get ⟨i, hi'⟩).id)) = true := by simpa using hne
      rw [h1]
      simp only [if_true]
      rw [ih i hi' hnodup.2]

lemma comp_filter_nodup_ids (ps : List Property) (hnodup : (ps.map (fun p => p.id)).Nodup) :
    ((ps.filter (fun p => p.type = .comparable)).map (fun p => p.id)).Nodup :=
  List.Nodup.sublist (List.Sublist.map _ (List.filter_sublist ps)) hnodup

lemma screenLegend_filter_remove (ps : List Property) (i : Nat)
    (hi : i < (ps.filter (fun p => p.type = .comparable)).length)
    (hnodup : (ps.map (fun p => p.id)).Nodup) :
    (handleRemoveProperty (((ps.filter (fun p => p.type = .comparable)).get ⟨i, hi⟩).id)
        ps).filter (fun p => p.type = .comparable)
      = (ps.filter (fun p => p.type = .comparable)).eraseIdx i := by
  unfold handleRemoveProperty
  rw [List.filter_filter]
  have hswap : ps.filter
        (fun p => decide (p.type = .comparable)
          && decide (p.id ≠ ((ps.filter (fun p => p.type = .comparable)).get ⟨i, hi⟩).id))
      = (ps.filter (fun p => p.type = .comparable)).filter
          (fun p => p.id ≠ ((ps.filter (fun p => p.type = .comparable)).get ⟨i, hi⟩).id) := by
    rw [List.filter_filter]
    apply List.filter_congr
    intro a _
    exact Bool.and_comm _ _
  rw [hswap, filter_key_eq_eraseIdx _ i hi (comp_filter_nodup_ids ps hnodup)]

end Numbering

/-- C6 (amended): the map markers and the export legend number the same
subset, the comparable records with a non-blank address, in list order, so
they always agree; the on-screen legend numbers every comparable record
and agrees with the markers whenever no comparable has a blank address. -/
theorem c6_marker_legend_numbering (ps : List Property) :
    compMarkerEntries ps = exportLegendEntries ps
    ∧ ((∀ p ∈ ps, p.type = .comparable → jsTrim p.address ≠ []) →
        screenLegendEntries ps = compMarkerEntries ps) := by
  refine ⟨rfl, ?_⟩
  intro h
  unfold screenLegendEntries compMarkerEntries
  congr 1
  apply List.filter_congr
  intro p hp
  by_cases hc : p.type = .comparable
  · simp [hc, h p hp hc]
  · simp [hc]

/-- A concrete primary record for witness states. -/
def c6Primary : Property :=
  { id := .primary, name := "P".toList, address := "0 Base Rd".toList
    type := .primary, gla := [], occupancy := [], rate := [] }

/-- A comparable record with a blank address. -/
def c6Blank : Property :=
  { id := .added .comparable 1, name := "A".toList, address := []
    type := .comparable, gla := [], occupancy := [], rate := [] }

/-- A comparable record with a non-blank address. -/
def c6Addressed : Property :=
  { id := .added .comparable 2, name := "B".toList, address := "1 Main St".toList
    type := .comparable, gla := [], occupancy := [], rate := [] }

/-- Witness for C6 on a list whose comparables all carry addresses. -/
theorem c6_marker_legend_numbering_witness :
    (∀ p ∈ [c6Primary, c6Addressed], p.type = .comparable → jsTrim p.address ≠ [])
    ∧ screenLegendEntries [c6Primary, c6Addressed]
        = compMarkerEntries [c6Primary, c6Addressed] := by
  refine ⟨by decide, ?_⟩
  exact (c6_marker_legend_numbering [c6Primary, c6Addressed]).2 (by decide)

/-- Counterexample for C6 as stated: with a blank-address comparable ahead
of an addressed one, the marker numbering gives the addressed record the
number one while the on-screen legend gives it two. -/
theorem c6_counterexample :
    compMarkerEntries [c6Primary, c6Blank, c6Addressed] = [(c6Addressed, 1)]
    ∧ screenLegendEntries [c6Primary, c6Blank, c6Addressed]
        = [(c6Blank, 1), (c6Addressed, 2)] := by
  exact ⟨by decide, by decide⟩

/-- C8: comparable numbering is positional and order-stable.  The
interactive add appends its record and extends the numbering with the next
number, leaving every existing entry unchanged; removing the comparable at
filter position i erases exactly that entry, so entries before i keep
their number and every later entry moves up one place, its number dropping
by one, with relative order preserved. -/
theorem c8_numbering_stability :
    (∀ (t : Nat) (ps : List Property),
      (ps.filter (fun p => p.type = .comparable)).length < 12 →
      screenLegendEntries (handleAddProperty2 t ps) =
        screenLegendEntries ps
          ++ [(newComparable2 t ps, (ps.filter (fun p => p.type = .comparable)).length + 1)])
    ∧ (∀ (ps : List Property) (i : Nat)
        (hi : i < (ps.filter (fun p => p.type = .comparable)).length),
        (ps.map (fun p => p.id)).Nodup →
        screenLegendEntries (handleRemoveProperty
            (((ps.filter (fun p => p.type = .comparable)).get ⟨i, hi⟩).id) ps)
          = numberFrom 1 ((ps.filter (fun p => p.type = .comparable)).eraseIdx i))
    ∧ (∀ (ps : List Property) (i : Nat)
        (hi : i < (ps.filter (fun p => p.type = .comparable)).length),
        (ps.map (fun p => p.id)).Nodup →
        ∀ (j : Nat) (hj : j < (ps.filter (fun p => p.type = .comparable)).length),
          (j < i →
            (screenLegendEntries (handleRemoveProperty
                (((ps.filter (fun p => p.type = .comparable)).get ⟨i, hi⟩).id) ps))[j]?
              = some ((ps.filter (fun p => p.type = .comparable)).get ⟨j, hj⟩, j + 1))
          ∧ (i < j →
            (screenLegendEntries (handleRemoveProperty
                (((ps.filter (fun p => p.type = .comparable)).get ⟨i, hi⟩).id) ps))[j - 1]?
              = some ((ps.filter (fun p => p.type = .comparable)).get ⟨j, hj⟩, j))) := by
  refine ⟨?_, ?_, ?_⟩
  · intro t ps h
    unfold handleAddProperty2 screenLegendEntries
    rw [if_pos h, List.filter_append]
    have hnew : ([newComparable2 t ps].filter (fun p => p.type = .comparable))
        = [newComparable2 t ps] := by
      simp [newComparable2]
    rw [hnew, numberFrom_append]
    simp [numberFrom, Nat.add_comm]
  · intro ps i hi hnodup
    unfold screenLegendEntries
    rw [screenLegend_filter_remove ps i hi hnodup]
  · intro ps i hi hnodup j hj
    have hb : screenLegendEntries (handleRemoveProperty
          (((ps.filter (fun p => p.type = .comparable)).get ⟨i, hi⟩).id) ps)
        = numberFrom 1 ((ps.filter (fun p => p.type = .comparable)).eraseIdx i) := by
      unfold screenLegendEntries
      rw [screenLegend_filter_remove ps i hi hnodup]
    constructor
    · intro hij
      rw [hb, numberFrom_getElem?, List.getElem?_eraseIdx_of_lt _ _ _ hij]
      rw [List.getElem?_eq_getElem hj]
      simp [List.get_eq_getElem, Nat.add_comm]
    · intro hij
      rw [hb, numberFrom_getElem?, List.getElem?_eraseIdx_of_ge _ _ _ (by omega)]
      have hj1 : j - 1 + 1 = j := by omega
      rw [hj1, List.getElem?_eq_getElem hj]
      have hn : 1 + (j - 1) = j := by omega
      simp [List.get_eq_getElem, hn]

/-- A comparable record with an address, indexed for witness states. -/
def c8C (k : Nat) : Property :=
  { id := .added .comparable k, name := [], address := "1 Road".toList
    type := .comparable, gla := [], occupancy := [], rate := [] }

/-- A list holding a primary and three comparables. -/
def c8Demo : List Property := [c6Primary, c8C 1, c8C 2, c8C 3]

/-- Witness for C8: removing the first of three comparables renumbers the
remaining two to one and two in their original order. -/
theorem c8_numbering_stability_witness :
    (c8Demo.map (fun p => p.id)).Nodup
    ∧ screenLegendEntries (handleRemoveProperty
        (((c8Demo.filter (fun p => p.type = .comparable)).get ⟨0, by decide⟩).id) c8Demo)
      = [(c8C 2, 1), (c8C 3, 2)] := by
  refine ⟨by decide, ?_⟩
  exact (c8_numbering_stability.2.1 c8Demo 0 (by decide) (by decide)).trans (by decide)

section Identity

lemma parseLine3_id_eq_primary_iff (t i : Nat) (l : List Char) :
    (parseLine3 t i l).id = .primary ↔ i = 0 := by
  cases i with
  | zero => simp [parseLine3_id_zero]
  | succ i =>
    rw [parseLine3_id_pos t l (by omega)]
    simp

lemma bulkRecords3_id_shape (tf : Nat → Nat) (n : Nat) (lines : List (List Char)) :
    ∀ p ∈ bulkRecords3 tf n lines,
      (p.id = .primary ∧ n = 0) ∨ ∃ ty k, n ≤ k ∧ p.id = .bulk ty (tf k) k := by
  intro p hp
  obtain ⟨k, l, hk, -, rfl⟩ := bulkRecords3_mem tf hp
  rcases Nat.eq_zero_or_pos k with hk0 | hkpos
  · subst hk0
    exact Or.inl ⟨parseLine3_id_zero _ _, Nat.le_zero.mp hk⟩
  · exact Or.inr ⟨bulkType3 k l, k, hk, parseLine3_id_pos _ l hkpos⟩

lemma bulkRecords3_ids_nodup (tf : Nat → Nat) (n : Nat) (lines : List (List Char)) :
    ((bulkRecords3 tf n lines).map (fun p => p.id)).Nodup := by
  induction lines generalizing n with
  | nil => simp [bulkRecords3]
  | cons l ls ih =>
    simp only [bulkRecords3, List.map_cons, List.nodup_cons]
    refine ⟨?_, ih (n + 1)⟩
    intro hmem
    obtain ⟨q, hq, hqid⟩ := List.mem_map.mp hmem
    rcases bulkRecords3_id_shape tf (n + 1) ls q hq with ⟨-, hne⟩ | ⟨ty, k, hk, hqb⟩
    · omega
    · rcases Nat.eq_zero_or_pos n with h0 | hpos
      · subst h0
        rw [parseLine3_id_zero, hqb] at hqid
        exact absurd hqid (by simp)
      · rw [parseLine3_id_pos (tf n) l hpos, hqb] at hqid
        injection hqid with hty hteq hkeq
        omega

end Identity

/-- The claim that identifiers generated by one parse call are distinct
from those of any repeated parse call, with no assumption on the clock
values observed by the two calls. -/
def c9CrossCallDistinct : Prop :=
  ∀ (tf₁ tf₂ : Nat → Nat) (lines₁ lines₂ : List (List Char)) (p q : Property),
    p ∈ bulkRecords3 tf₁ 0 lines₁ → q ∈ bulkRecords3 tf₂ 0 lines₂ →
    p.id ≠ .primary → p.id ≠ q.id

/-- C9 (amended): the record at position zero carries the reserved primary
identifier; every later record carries an identifier built from its role,
the clock value of its line, and its position; identifiers are pairwise
distinct within one parse call; and the identifiers of two calls are
disjoint on the generated side whenever the clock values observed by the
two calls never coincide. -/
theorem c9_identity_assignment :
    (∀ (tf : Nat → Nat) (lines : List (List Char)) (p : Property),
        (bulkRecords3 tf 0 lines).get? 0 = some p → p.id = .primary)
    ∧ (∀ (tf : Nat → Nat) (lines : List (List Char)) (i : Nat), 0 < i →
        ∀ p, (bulkRecords3 tf 0 lines).get? i = some p → p.id = .bulk p.type (tf i) i)
    ∧ (∀ (tf : Nat → Nat) (lines : List (List Char)),
        ((bulkRecords3 tf 0 lines).map (fun p => p.id)).Nodup)
    ∧ (∀ (tf₁ tf₂ : Nat → Nat) (lines₁ lines₂ : List (List Char)),
        (∀ i j, tf₁ i ≠ tf₂ j) →
        ∀ p q, p ∈ bulkRecords3 tf₁ 0 lines₁ → q ∈ bulkRecords3 tf₂ 0 lines₂ →
          p.id ≠ .primary → p.id ≠ q.id) := by
  refine ⟨?_, ?_, ?_, ?_⟩
  · intro tf lines p hp
    rw [bulkRecords3_get?] at hp
    obtain ⟨l, -, rfl⟩ := Option.map_eq_some'.mp hp
    exact parseLine3_id_zero _ _
  · intro tf lines i hi p hp
    rw [bulkRecords3_get?, Nat.zero_add] at hp
    obtain ⟨l, -, rfl⟩ := Option.map_eq_some'.mp hp
    rw [parseLine3_type, parseLine3_id_pos _ l (by omega)]
  · intro tf lines
    exact bulkRecords3_ids_nodup tf 0 lines
  · intro tf₁ tf₂ lines₁ lines₂ hclock p q hp hq hnp
    rcases bulkRecords3_id_shape tf₁ 0 lines₁ p hp with ⟨hpp, -⟩ | ⟨ty, k, -, hpb⟩
    · exact absurd hpp hnp
    · rcases bulkRecords3_id_shape tf₂ 0 lines₂ q hq with ⟨hqp, -⟩ | ⟨ty2, k2, -, hqb⟩
      · rw [hpb, hqp]
        simp
      · rw [hpb, hqb]
        intro he
        injection he with h1 h2 h3
        exact hclock k k2 h2

/-- Witness for C9 using clocks with disjoint ranges. -/
theorem c9_identity_assignment_witness :
    (parseLine3 2 1 "b".toList).id = .bulk (parseLine3 2 1 "b".toList).type 2 1
    ∧ (parseLine3 2 1 "b".toList).id ≠ (parseLine3 3 1 "b".toList).id := by
  constructor
  · exact c9_identity_assignment.2.1 (fun k => 2 * k) ["a".toList, "b".toList] 1 (by omega)
      (parseLine3 2 1 "b".toList) (by decide)
  · exact c9_identity_assignment.2.2.2 (fun k => 2 * k) (fun k => 2 * k + 1)
      ["a".toList, "b".toList] ["a".toList, "b".toList]
      (fun i j => by
        show 2 * i ≠ 2 * j + 1
        omega)
      (parseLine3 2 1 "b".toList) (parseLine3 3 1 "b".toList)
      (by decide) (by decide) (by decide)

/-- Counterexample for C9 as stated: two parse calls of the same text that
observe the same clock value produce identical identifier lists, so the
generated identifiers are not distinct across repeated calls. -/
theorem c9_counterexample :
    ¬ c9CrossCallDistinct
    ∧ (bulkRecords3 (fun _ => 0) 0 ["a".toList, "b".toList]).map (fun p => p.id)
        = [.primary, .bulk .comparable 0 1] := by
  refine ⟨?_, by decide⟩
  intro h
  exact (h (fun _ => 0) (fun _ => 0) ["a".toList, "b".toList] ["a".toList, "b".toList]
    (parseLine3 0 1 "b".toList) (parseLine3 0 1 "b".toList)
    (by decide) (by decide) (by decide)) rfl

section Invariant

/-- The inductive invariant of the property-list state: exactly one record
carries the primary type, and a record carries the primary type exactly
when it carries the reserved primary identifier. -/
def Inv (ps : List Property) : Prop :=
  primaryCount ps = 1 ∧ ∀ p ∈ ps, (p.type = .primary ↔ p.id = .primary)

lemma setField_type (p : Property) (f : PField) (v : List Char) :
    (setField p f v).type = p.type := by
  cases f <;> rfl

lemma setField_id (p : Property) (f : PField) (v : List Char) :
    (setField p f v).id = p.id := by
  cases f <;> rfl

lemma primaryCount_append (ps qs : List Property) :
    primaryCount (ps ++ qs) = primaryCount ps + primaryCount qs := by
  unfold primaryCount
  simp [List.filter_append]

lemma primaryCount_map_pointwise (g : Property → Property) (ps : List Property)
    (hg : ∀ p ∈ ps, ((g p).type = .primary ↔ p.type = .primary)) :
    primaryCount (ps.map g) = primaryCount ps := by
  induction ps with
  | nil => rfl
  | cons p ps ih =>
    rw [List.map_cons, primaryCount_cons, primaryCount_cons,
      ih (fun q hq => hg q (List.mem_cons_of_mem p hq))]
    congr 1
    by_cases hp : p.type = .primary
    · rw [if_pos ((hg p (List.mem_cons_self p ps)).mpr hp), if_pos hp]
    · rw [if_neg (fun hc => hp ((hg p (List.mem_cons_self p ps)).mp hc)), if_neg hp]

lemma inv_append_nonprimary (ps : List Property) (r : Property) (h : Inv ps)
    (hty : r.type ≠ .primary) (hid : r.id ≠ .primary) : Inv (ps ++ [r]) := by
  constructor
  · rw [primaryCount_append]
    have hz : primaryCount [r] = 0 := by
      unfold primaryCount
      simp [hty]
    rw [hz, h.1]
  · intro p hp
    rcases List.mem_append.mp hp with h1 | h1
    · exact h.2 p h1
    · simp only [List.mem_singleton] at h1
      subst h1
      exact iff_of_false hty hid

lemma inv_add (t : Nat) (ty : PType) (ps : List Property) (h : Inv ps) :
    Inv (handleAddProperty3 t ty ps) := by
  unfold handleAddProperty3
  split <;> (dsimp only; split)
  · exact h
  · exact inv_append_nonprimary ps _ h (by simp) (by simp)
  · exact h
  · exact inv_append_nonprimary ps _ h (by simp) (by simp)

lemma inv_remove (i : PId) (p : Property) (ps : List Property) (hp : p ∈ ps)
    (hty : p.type ≠ .primary) (hid : p.id = i) (h : Inv ps) :
    Inv (handleRemoveProperty i ps) := by
  have hine : i ≠ PId.primary := by
    intro e
    exact hty ((h.2 p hp).mpr (by rw [hid, e]))
  constructor
  · unfold primaryCount handleRemoveProperty
    rw [List.filter_filter]
    have hc : ps.filter (fun a => decide (a.type = .primary) && decide (a.id ≠ i))
        = ps.filter (fun a => a.type = .primary) := by
      apply List.filter_congr
      intro a ha
      by_cases hpa : a.type = .primary
      · have haid : a.id = .primary := (h.2 a ha).mp hpa
        have hne : a.id ≠ i := by
          rw [haid]
          exact Ne.symm hine
        simp [hpa, hne]
      · simp [hpa]
    rw [hc]
    exact h.1
  · intro q hq
    unfold handleRemoveProperty at hq
    exact h.2 q (List.mem_of_mem_filter hq)

lemma inv_change (i : PId) (f : PField) (v : List Char) (ps : List Property)
    (h : Inv ps) : Inv (handlePropertyChange i f v ps) := by
  unfold handlePropertyChange
  have htype : ∀ p : Property,
      ((if p.id = i then setField p f v else p).type) = p.type := by
    intro p
    split_ifs with hc
    · exact setField_type p f v
    · rfl
  have hidp : ∀ p : Property,
      ((if p.id = i then setField p f v else p).id) = p.id := by
    intro p
    split_ifs with hc
    · exact setField_id p f v
    · rfl
  constructor
  · rw [primaryCount_map_pointwise _ ps (fun p _ => by rw [htype p])]
    exact h.1
  · intro q hq
    obtain ⟨p, hp, rfl⟩ := List.mem_map.mp hq
    rw [htype p, hidp p]
    exact h.2 p hp

lemma inv_typeChange (i : PId) (ty : PType) (p : Property) (ps : List Property)
    (hp : p ∈ ps) (hty : p.type ≠ .primary) (hid : p.id = i)
    (hopt : ty = .comparable ∨ ty = .hospital) (h : Inv ps) :
    Inv (handlePropertyTypeChange i ty ps) := by
  have hine : i ≠ PId.primary := by
    intro e
    exact hty ((h.2 p hp).mpr (by rw [hid, e]))
  have htyne : ty ≠ .primary := by
    rcases hopt with h1 | h1 <;> simp [h1]
  unfold handlePropertyTypeChange
  have htype : ∀ q ∈ ps,
      ((if q.id = i then { q with type := ty } else q).type = .primary
        ↔ q.type = .primary) := by
    intro q hq
    split_ifs with hc
    · have hqty : q.type ≠ .primary := by
        intro e
        have hqi := (h.2 q hq).mp e
        rw [hc] at hqi
        exact hine hqi
      exact iff_of_false (by simpa using htyne) hqty
    · exact Iff.rfl
  have hidp : ∀ q : Property,
      ((if q.id = i then { q with type := ty } else q).id = q.id) := by
    intro q
    split_ifs with hc <;> rfl
  constructor
  · rw [primaryCount_map_pointwise _ ps htype]
    exact h.1
  · intro q hq
    obtain ⟨r, hr, rfl⟩ := List.mem_map.mp hq
    rw [hidp r, htype r hr]
    exact h.2 r hr

lemma inv_bulk (tf : Nat → Nat) (text : List Char) (ps : List Property)
    (h : Inv ps) : Inv (handleBulkAddressInput3 tf text ps) := by
  rcases hnl : nonblankLines text with _ | ⟨l, ls⟩
  · have heq : handleBulkAddressInput3 tf text ps = ps := by
      unfold handleBulkAddressInput3
      rw [hnl]
      simp
    rw [heq]
    exact h
  · rw [handleBulk3_eq_cons tf text ps hnl]
    constructor
    · rw [primaryCount_cons, primaryCount_bulkRecords3_tail tf 1 ls (by omega)]
      simp [parseLine3_type, bulkType3_zero]
    · intro q hq
      rcases List.mem_cons.mp hq with h1 | h1
      · subst h1
        rw [parseLine3_type, bulkType3_eq_primary_iff, parseLine3_id_eq_primary_iff]
      · obtain ⟨k, l', hk, -, rfl⟩ := bulkRecords3_mem tf h1
        rw [parseLine3_type, bulkType3_eq_primary_iff, parseLine3_id_eq_primary_iff]

lemma reachable_inv (ps : List Property) (h : Reachable ps) : Inv ps := by
  induction h with
  | init =>
    constructor
    · decide
    · intro p hp
      simp only [List.mem_singleton] at hp
      subst hp
      decide
  | step hr hs ih =>
    cases hs with
    | add t ty => exact inv_add t ty _ ih
    | remove i p hp hty hid => exact inv_remove i p _ hp hty hid ih
    | change i f v => exact inv_change i f v _ ih
    | typeChange i ty p hp hty hid hopt => exact inv_typeChange i ty p _ hp hty hid hopt ih
    | bulk tf text => exact inv_bulk tf text _ ih

end Invariant

/-- C5 (amended): every state reachable by the UI-exposed operations has
exactly one record of the primary type, and removing through the
identifier of any non-primary record leaves the primary record in place;
the unguarded remove handler itself, called with the primary identifier,
does delete the primary record, as the counterexample shows. -/
theorem c5_reachable_primary (ps : List Property) (h : Reachable ps) :
    primaryCount ps = 1
    ∧ ∀ (i : PId) (p : Property), p ∈ ps → p.id = i → p.type ≠ .primary →
        ∃ q ∈ handleRemoveProperty i ps, q.type = .primary := by
  have hinv := reachable_inv ps h
  refine ⟨hinv.1, ?_⟩
  intro i p hp hid hty
  obtain ⟨pr, hpr, hprty⟩ : ∃ pr ∈ ps, pr.type = .primary := by
    have h1 := hinv.1
    unfold primaryCount at h1
    rcases hx : ps.filter (fun p => p.type = .primary) with _ | ⟨pr, rest⟩
    · rw [hx] at h1
      simp at h1
    · have hmem : pr ∈ ps.filter (fun p => p.type = .primary) := by
        rw [hx]
        exact List.mem_cons_self pr rest
      have hm := List.mem_filter.mp hmem
      exact ⟨pr, hm.1, by simpa using hm.2⟩
  have hprid : pr.id = .primary := (hinv.2 pr hpr).mp hprty
  have hine : i ≠ PId.primary := by
    intro e
    exact hty ((hinv.2 p hp).mpr (by rw [hid, e]))
  refine ⟨pr, ?_, hprty⟩
  unfold handleRemoveProperty
  refine List.mem_filter.mpr ⟨hpr, ?_⟩
  rw [hprid]
  simpa using Ne.symm hine

/-- Witness for C5 on the initial state and on a state holding one
comparable record. -/
theorem c5_reachable_primary_witness :
    primaryCount [initialProperty] = 1
    ∧ ∃ q ∈ handleRemoveProperty (PId.added .comparable 0)
          (handleAddProperty3 0 .comparable [initialProperty]),
        q.type = .primary := by
  have hr : Reachable (handleAddProperty3 0 .comparable [initialProperty]) :=
    Reachable.step Reachable.init (Step.add [initialProperty] 0 .comparable)
  constructor
  · exact (c5_reachable_primary [initialProperty] Reachable.init).1
  · exact (c5_reachable_primary _ hr).2 (PId.added .comparable 0)
      { id := .added .comparable 0, name := "Comparable 1".toList, address := []
        type := .comparable, gla := [], occupancy := [], rate := [] }
      (by decide) (by decide) (by decide)

/-- Counterexample for C5 as stated: the remove handler applied with the
primary identifier deletes the primary record, leaving an empty list. -/
theorem c5_counterexample :
    handleRemoveProperty PId.primary [initialProperty] = []
    ∧ initialProperty.type = .primary
    ∧ initialProperty.id = .primary := by
  exact ⟨by decide, by decide, by decide⟩

section TypeChangeCount

lemma typeChange_cons (i : PId) (ty : PType) (p : Property) (ps : List Property) :
    handlePropertyTypeChange i ty (p :: ps)
      = (if p.id = i then { p with type := ty } else p)
          :: handlePropertyTypeChange i ty ps := rfl

lemma typeChange_no_match (ps : List Property) (i : PId) (ty : PType)
    (h : ∀ q ∈ ps, ¬ q.id = i) :
    handlePropertyTypeChange i ty ps = ps := by
  induction ps with
  | nil => rfl
  | cons p ps ih =>
    rw [typeChange_cons, if_neg (h p (List.mem_cons_self p ps)),
      ih (fun q hq => h q (List.mem_cons_of_mem p hq))]

lemma typeChange_count (ps : List Property) (i : PId)
    (h1 : (ps.filter (fun p => p.id = i)).length = 1)
    (h2 : ∀ p ∈ ps, p.id = i → p.type = .hospital) :
    ((handlePropertyTypeChange i .comparable ps).filter
        (fun p => p.type = .comparable)).length
      = (ps.filter (fun p => p.type = .comparable)).length + 1 := by
  induction ps with
  | nil => simp at h1
  | cons p ps ih =>
    rw [typeChange_cons]
    by_cases hpi : p.id = i
    · have hp3 : p.type = .hospital := h2 p (List.mem_cons_self p ps) hpi
      have hrest0 : (ps.filter (fun q => q.id = i)).length = 0 := by
        rw [List.filter_cons] at h1
        have hd : decide (p.id = i) = true := by simpa using hpi
        rw [hd] at h1
        simpa using h1
      have hnomatch : ∀ q ∈ ps, ¬ q.id = i := by
        rw [List.length_eq_zero, List.filter_eq_nil_iff] at hrest0
        intro q hq
        simpa using hrest0 q hq
      rw [if_pos hpi, typeChange_no_match ps i .comparable hnomatch]
      rw [List.filter_cons, List.filter_cons]
      have hnew : decide (({ p with type := PType.comparable } : Property).type
          = .comparable) = true := by
        simp
      have hold : decide (p.type = .comparable) = false := by
        simp [hp3]
      rw [hnew, hold]
      simp
    · rw [if_neg hpi]
      have h1h : (ps.filter (fun q => q.id = i)).length = 1 := by
        rw [List.filter_cons] at h1
        have hd : decide (p.id = i) = false := by simpa using hpi
        rw [hd] at h1
        simpa using h1
      have h2h : ∀ q ∈ ps, q.id = i → q.type = .hospital :=
        fun q hq => h2 q (List.mem_cons_of_mem p hq)
      rw [List.filter_cons, List.filter_cons]
      by_cases hpc : p.type = .comparable
      · have hd : decide (p.type = .comparable) = true := by simpa using hpc
        rw [hd]
        simp only [if_true, List.length_cons]
        rw [ih h1h h2h]
      · have hd : decide (p.type = .comparable) = false := by simpa using hpc
        rw [hd]
        simp only [Bool.false_eq_true, if_false]
        exact ih h1h h2h

end TypeChangeCount

/-- A bulk input text whose parse yields one primary, twelve comparables,
and one keyword-classified hospital. -/
def c10Text : List Char :=
  "p\na\nb\nc\nd\ne\nf\ng\nh\ni\nj\nk\nl\nhospital".toList

/-- C10: the type-change handler rewrites the matched record with no cap
check, so from a list holding twelve comparables and one hospital with the
given identifier, changing that hospital to comparable yields thirteen
comparables; such a state is reachable through the UI-exposed operations. -/
theorem c10_type_change_bypasses_caps :
    (∀ (ps : List Property) (i : PId),
      (ps.filter (fun p => p.id = i)).length = 1 →
      (∀ p ∈ ps, p.id = i → p.type = .hospital) →
      (ps.filter (fun p => p.type = .comparable)).length = 12 →
      ((handlePropertyTypeChange i .comparable ps).filter
          (fun p => p.type = .comparable)).length = 13)
    ∧ ∃ st, Reachable st ∧ (st.filter (fun p => p.type = .comparable)).length = 13 := by
  constructor
  · intro ps i h1 h2 h3
    rw [typeChange_count ps i h1 h2, h3]
  · refine ⟨handlePropertyTypeChange (PId.bulk .hospital 0 13) .comparable
      (handleBulkAddressInput3 (fun _ => 0) c10Text [initialProperty]), ?_, ?_⟩
    · refine Reachable.step (Reachable.step Reachable.init
        (Step.bulk [initialProperty] (fun _ => 0) c10Text)) ?_
      exact Step.typeChange _ (PId.bulk .hospital 0 13) .comparable
        (parseLine3 0 13 "hospital".toList) (by decide) (by decide) (by decide)
        (Or.inl rfl)
    · decide

/-- Witness for C10 on the parsed fourteen-line state. -/
theorem c10_type_change_bypasses_caps_witness :
    ((handleBulkAddressInput3 (fun _ => 0) c10Text [initialProperty]).filter
        (fun p => p.type = .comparable)).length = 12
    ∧ ((handlePropertyTypeChange (PId.bulk .hospital 0 13) .comparable
        (handleBulkAddressInput3 (fun _ => 0) c10Text [initialProperty])).filter
        (fun p => p.type = .comparable)).length = 13 := by
  refine ⟨by decide, ?_⟩
  exact c10_type_change_bypasses_caps.1 _ (PId.bulk .hospital 0 13)
    (by decide) (by decide) (by decide)

/-- Witness for C4 at a delimiter-free address line in position two. -/
theorem c4_default_names_witness :
    (lineParts "5 Oak St".toList).length = 1
    ∧ (parseLine3 0 2 "5 Oak St".toList).name = "Comparable 2".toList
    ∧ (parseLine3 0 2 "5 Oak St".toList).address = "5 Oak St".toList := by
  have h : (lineParts "5 Oak St".toList).length = 1 := by decide
  have hc := (c4_default_names.1 0 2 "5 Oak St".toList h)
  refine ⟨h, ?_, ?_⟩
  · rw [hc.2.2.2.1 (by omega) (by decide)]
    decide
  · rw [hc.1]
    decide

end PropertyMap
